import Mathlib

/-!
# The `api` fetch helper of `frontend/src/lib/api.js`

A shallow embedding of the exported constant `API_BASE` and of the exported
asynchronous function `api(endpoint, options = {})`.

* JavaScript values are the data values `JsVal` (`undefined`, `null`,
  booleans, integers, strings, arrays, plain objects).  A string is a
  sequence of code points; the one-unit string of a lone surrogate, which
  the spread of a string produces, is a value of its own.  A plain object is
  the sequence of its property definitions, read with the rule of an object
  literal: a later definition of a key replaces an earlier one.
* The platform (`fetch`, `Response.text`, `Response.json`) is a parameter:
  a `World` answers every call with a `Completion`.
* A run of `api` yields the list of observable events (console lines, the
  `fetch` call, the body reader calls) and the way the returned promise
  settles.
-/

namespace IssuesTracker

/-! ## Values -/

/-- JavaScript data values. -/
inductive JsVal where
  | undefined : JsVal
  | null : JsVal
  | bool (b : Bool) : JsVal
  | num (n : Int) : JsVal
  | str (s : String) : JsVal
  | surrogate (unit : Nat) : JsVal
  | arr (items : List JsVal) : JsVal
  | obj (props : List (String × JsVal)) : JsVal

/-- Property definitions in source order. -/
abbrev Props := List (String × JsVal)

/-- The value a sequence of property definitions gives to key `k`: the last
definition of `k` wins, as in an object literal. -/
def lookup (k : String) : Props → Option JsVal
  | [] => none
  | (k', v) :: rest =>
    match lookup k rest with
    | some w => some w
    | none => if k' = k then some v else none

/-- The key `k` is an own property. -/
def hasKey (k : String) (ps : Props) : Bool :=
  (lookup k ps).isSome

/-- Index-keyed properties of a list of values, counting from `i`. -/
def indexed : Nat → List JsVal → Props
  | _, [] => []
  | i, v :: vs => (toString i, v) :: indexed (i + 1) vs

/-- JavaScript `ToBoolean`, used by `||`. -/
def truthy : JsVal → Bool
  | .undefined => false
  | .null => false
  | .bool b => b
  | .num n => n != 0
  | .str s => s != ""
  | .surrogate _ => true
  | .arr _ => true
  | .obj _ => true

/-- The UTF-16 units of one code point, each as the one-unit string that
indexing a JavaScript string gives: the character itself inside the Basic
Multilingual Plane, else its high and its low surrogate. -/
def charUnits (c : Char) : List JsVal :=
  if c.toNat < 0x10000 then [.str (String.singleton c)]
  else [.surrogate (0xD800 + (c.toNat - 0x10000) / 0x400),
    .surrogate (0xDC00 + (c.toNat - 0x10000) % 0x400)]

/-- The UTF-16 units of a string, in order. -/
def stringUnits : List Char → List JsVal
  | [] => []
  | c :: cs => charUnits c ++ stringUnits cs

/-- Own enumerable properties copied by the spread `...v` inside an object
literal.  `undefined`, `null`, booleans and numbers contribute nothing, a
string contributes its UTF-16 units under their indices, an array its items
under their indices. -/
def ownProps : JsVal → Props
  | .obj ps => ps
  | .arr xs => indexed 0 xs
  | .str s => indexed 0 (stringUnits s.toList)
  | .surrogate u => indexed 0 [.surrogate u]
  | _ => []

/-- Property read `v.k` for a key `k` that no built-in prototype defines
(the source reads `headers` only).  Reading a property of `undefined` or
`null` raises a `TypeError`, rendered as `none`; a missing property reads as
`undefined`. -/
def getProp (v : JsVal) (k : String) : Option JsVal :=
  match v with
  | .undefined => none
  | .null => none
  | .obj ps => some ((lookup k ps).getD .undefined)
  | .arr xs => some ((lookup k (indexed 0 xs)).getD .undefined)
  | .str s => some ((lookup k (ownProps (.str s))).getD .undefined)
  | .surrogate u => some ((lookup k (ownProps (.surrogate u))).getD .undefined)
  | _ => some .undefined

/-! ## Platform -/

/-- How a call into the platform completes: it throws at once, or it hands
back a promise that rejects, resolves, or never settles. -/
inductive Completion (E α : Type) where
  | threw (e : E) : Completion E α
  | rejected (e : E) : Completion E α
  | resolved (v : α) : Completion E α
  | pending : Completion E α

/-- The parts of a `Response` that `api` touches. -/
structure Response (E : Type) where
  status : JsVal
  headers : JsVal
  ok : Bool
  text : Completion E String
  json : Completion E JsVal

/-- The platform seen by `api`: the global `fetch`. -/
structure World (E : Type) where
  fetch : String → JsVal → Completion E (Response E)

/-- Values that `api` can fail with: a value raised by the platform, passed
on as it is; the object built by `new Error(message)`; the `TypeError` the
language raises on a property read of `null`. -/
inductive Thrown (E : Type) where
  | env (e : E) : Thrown E
  | error (message : String) : Thrown E
  | typeError : Thrown E

/-- The way the promise returned by `api` settles. -/
inductive Settled (E : Type) where
  | fulfilled (v : JsVal) : Settled E
  | failed (e : Thrown E) : Settled E
  | pending : Settled E

/-- Observable steps of a run. -/
inductive Event (E : Type) where
  | log (text : String) (value : Option JsVal) : Event E
  | errorText (text : String) (value : String) : Event E
  | errorThrown (text : String) (e : Thrown E) : Event E
  | fetchCall (url : String) (init : JsVal) : Event E
  | textCall : Event E
  | jsonCall : Event E

/-- A finished run: what happened, and how the promise settled. -/
structure Run (E : Type) where
  trace : List (Event E)
  result : Settled E

/-! ## The module -/

/-- The exported constant: `export const API_BASE = 'http://localhost:8000';` -/
def API_BASE : String := "http://localhost:8000"

/-- The template literal with `API_BASE` and `endpoint`. -/
def requestUrl (endpoint : String) : String :=
  API_BASE ++ endpoint

/-- The default of the parameter: `options = {}` replaces `undefined`. -/
def defaultOptions : JsVal → JsVal
  | .undefined => .obj []
  | o => o

/-- The caller's header entries: `options.headers || {}`, then its spread. -/
def callerHeaders (options : JsVal) : Option Props :=
  match getProp options "headers" with
  | none => none
  | some h => some (if truthy h then ownProps h else [])

/-- The inner literal
`{ 'Content-Type': 'application/json', ...(options.headers || {}) }`. -/
def requestHeaders (options : JsVal) : Option Props :=
  match callerHeaders options with
  | none => none
  | some hs => some (("Content-Type", JsVal.str "application/json") :: hs)

/-- The second argument of `fetch`:
`{ ...options, headers: { ... }, credentials: 'include' }`; `none` when
building it raises a `TypeError`. -/
def requestInit (options : JsVal) : Option JsVal :=
  match requestHeaders options with
  | none => none
  | some hs =>
    some (.obj (ownProps options ++
      [("headers", JsVal.obj hs), ("credentials", JsVal.str "include")]))

/-- The `catch (error)` block: `console.error('Fetch error:', error);
throw error;`. -/
def catchBlock {E : Type} (pre : List (Event E)) (error : Thrown E) : Run E :=
  ⟨pre ++ [.errorThrown "Fetch error:" error], .failed error⟩

/-- The statements of the `try` block after `res` is bound. -/
def afterFetch {E : Type} (pre : List (Event E)) (res : Response E) : Run E :=
  let pre := pre ++ [.log "Response status:" (some res.status),
    .log "Response headers:" (some res.headers)]
  if !res.ok then
    match res.text with
    | .threw e => catchBlock (pre ++ [.textCall]) (.env e)
    | .rejected e => catchBlock (pre ++ [.textCall]) (.env e)
    | .pending => ⟨pre ++ [.textCall], .pending⟩
    | .resolved errorText =>
      catchBlock (pre ++ [.textCall, .errorText "API Error:" errorText])
        (.error errorText)
  else
    match res.json with
    | .threw e => catchBlock (pre ++ [.jsonCall]) (.env e)
    | .rejected e => ⟨pre ++ [.jsonCall], .failed (.env e)⟩
    | .pending => ⟨pre ++ [.jsonCall], .pending⟩
    | .resolved v => ⟨pre ++ [.jsonCall], .fulfilled v⟩

/-- The exported function `async function api(endpoint, options = {})`; an
omitted `options` is `undefined`. -/
def api {E : Type} (w : World E) (endpoint : String) (options : JsVal) : Run E :=
  let options := defaultOptions options
  let pre : List (Event E) :=
    [.log ("Making API request to: " ++ requestUrl endpoint) none,
     .log "Request options:" (some options)]
  match requestInit options with
  | none => catchBlock pre .typeError
  | some init =>
    let pre := pre ++ [.fetchCall (requestUrl endpoint) init]
    match w.fetch (requestUrl endpoint) init with
    | .threw e => catchBlock pre (.env e)
    | .rejected e => catchBlock pre (.env e)
    | .pending => ⟨pre, .pending⟩
    | .resolved res => afterFetch pre res

/-! ## Observations on a run -/

/-- The `fetch` calls of a trace, in order: URL and init of each. -/
def fetchCalls {E : Type} : List (Event E) → List (String × JsVal)
  | [] => []
  | .fetchCall url init :: rest => (url, init) :: fetchCalls rest
  | _ :: rest => fetchCalls rest

/-- Number of `text()` calls in a trace. -/
def textCalls {E : Type} : List (Event E) → Nat
  | [] => 0
  | .textCall :: rest => textCalls rest + 1
  | _ :: rest => textCalls rest

/-- Number of `json()` calls in a trace. -/
def jsonCalls {E : Type} : List (Event E) → Nat
  | [] => 0
  | .jsonCall :: rest => jsonCalls rest + 1
  | _ :: rest => jsonCalls rest

/-- The headers object of a request init, as property definitions. -/
def initHeaders : JsVal → Option Props
  | .obj ps =>
    match lookup "headers" ps with
    | some (.obj hs) => some hs
    | _ => none
  | _ => none

/-- The credentials entry of a request init. -/
def initCredentials : JsVal → Option JsVal
  | .obj ps => lookup "credentials" ps
  | _ => none

/-- The argument is `null`. -/
def isNull : JsVal → Bool
  | .null => true
  | _ => false

/-- Decimal digits of a number, most significant first: the characters of
the index key that `toString` writes. -/
def decimal (n : Nat) : List Char :=
  if n < 10 then [Nat.digitChar n] else decimal (n / 10) ++ [Nat.digitChar (n % 10)]
decreasing_by omega

/-- The number that a list of decimal digits writes. -/
def undecimal (cs : List Char) : Nat :=
  cs.foldl (fun a c => a * 10 + (c.toNat - 48)) 0

/-! ## Sample platforms and inputs -/

/-- A platform whose `fetch` never settles. -/
def silentWorld : World String :=
  ⟨fun _ _ => .pending⟩

/-- A platform whose `fetch` resolves with the given response. -/
def answering (res : Response String) : World String :=
  ⟨fun _ _ => .resolved res⟩

/-- A platform whose `fetch` rejects with the given value. -/
def offline (e : String) : World String :=
  ⟨fun _ _ => .rejected e⟩

/-- A `404` answer with a plain-text body. -/
def notFound : Response String :=
  { status := .num 404, headers := .obj [], ok := false,
    text := .resolved "issue not found", json := .rejected "SyntaxError" }

/-- A `200` answer with a JSON body. -/
def found : Response String :=
  { status := .num 200, headers := .obj [], ok := true,
    text := .resolved "[1]", json := .resolved (.arr [.num 1]) }

/-- A `200` answer whose body is not JSON. -/
def garbled : Response String :=
  { status := .num 200, headers := .obj [], ok := true,
    text := .resolved "<html>", json := .rejected "SyntaxError" }

/-- Options of a `POST` that also ask for other credentials and another
content type. -/
def postOptions : JsVal :=
  .obj [("method", .str "POST"), ("credentials", .str "omit"),
    ("headers", .obj [("Content-Type", .str "text/plain")])]

/-- Options with one custom header and a method. -/
def tokenOptions : JsVal :=
  .obj [("method", .str "DELETE"), ("headers", .obj [("X-Token", .str "abc")])]

/-! ## Lemmas -/

theorem digitChar_toNat (d : Nat) (h : d < 10) : (Nat.digitChar d).toNat = d + 48 := by
  interval_cases d <;> rfl

theorem toDigitsCore_eq (fuel : Nat) : ∀ (n : Nat) (ds : List Char), n < fuel →
    Nat.toDigitsCore 10 fuel n ds = decimal n ++ ds := by
  induction fuel with
  | zero => intro n ds h; omega
  | succ fuel ih =>
    intro n ds h
    rw [Nat.toDigitsCore, decimal]
    by_cases h0 : n / 10 = 0
    · have : n < 10 := by omega
      simp [h0, this, Nat.mod_eq_of_lt this]
    · have : ¬ n < 10 := by omega
      simp only [h0, this, if_false]
      rw [ih (n / 10) _ (by omega)]
      simp

theorem toString_eq_decimal (n : Nat) : toString n = String.mk (decimal n) := by
  show Nat.repr n = _
  simp [Nat.repr, Nat.toDigits, toDigitsCore_eq n.succ n [] (Nat.lt_succ_self n),
    List.asString]

theorem undecimal_decimal (n : Nat) : undecimal (decimal n) = n := by
  induction n using Nat.strong_induction_on with
  | _ n ih =>
    rw [decimal]
    by_cases h : n < 10
    · simp [h, undecimal, digitChar_toNat n h]
    · simp only [h, if_false]
      have := ih (n / 10) (by omega)
      simp only [undecimal, List.foldl_append, List.foldl_cons, List.foldl_nil] at this ⊢
      rw [this, digitChar_toNat _ (Nat.mod_lt _ (by omega))]
      omega

/-- Index keys of different indices differ. -/
theorem toString_nat_injective (i j : Nat) (h : toString i = toString j) : i = j := by
  rw [toString_eq_decimal, toString_eq_decimal] at h
  have h2 : decimal i = decimal j := congrArg String.data h
  rw [← undecimal_decimal i, ← undecimal_decimal j, h2]

theorem decimal_digits (n : Nat) : ∀ c ∈ decimal n, c.toNat < 58 := by
  induction n using Nat.strong_induction_on with
  | _ n ih =>
    intro c hc
    rw [decimal] at hc
    by_cases h : n < 10
    · simp [h] at hc
      subst hc
      rw [digitChar_toNat n h]; omega
    · simp only [h, if_false, List.mem_append, List.mem_singleton] at hc
      rcases hc with hc | hc
      · exact ih (n / 10) (by omega) c hc
      · subst hc
        rw [digitChar_toNat _ (Nat.mod_lt _ (by omega))]
        have := Nat.mod_lt n (show 10 > 0 by omega)
        omega

/-- A key holding a character past the digits is no index key. -/
theorem toString_nat_ne (i : Nat) (k : String) (c : Char) (hc : c ∈ k.data)
    (h58 : 58 ≤ c.toNat) : toString i ≠ k := by
  intro h
  rw [toString_eq_decimal] at h
  have h2 : decimal i = k.data := congrArg String.data h
  have := decimal_digits i c (by rw [h2]; exact hc)
  omega

theorem lookup_indexed_aux (xs : List JsVal) : ∀ (n j : Nat),
    lookup (toString j) (indexed n xs) = if n ≤ j then xs[j - n]? else none := by
  induction xs with
  | nil => intro n j; simp [indexed, lookup]
  | cons v vs ih =>
    intro n j
    rw [indexed, lookup, ih (n + 1) j]
    by_cases h1 : n + 1 ≤ j
    · have h2 : n ≤ j := by omega
      have h3 : j - n = (j - (n + 1)) + 1 := by omega
      have h4 : ¬ toString n = toString j := fun h => by
        have := toString_nat_injective n j h; omega
      simp only [h1, h2, if_true, h3, List.getElem?_cons_succ, h4, if_false]
      cases vs[j - (n + 1)]? <;> rfl
    · simp only [h1, if_false]
      by_cases h2 : n = j
      · subst h2; simp
      · have h4 : ¬ toString n = toString j := fun h =>
          h2 (toString_nat_injective n j h)
        have h5 : ¬ n ≤ j := by omega
        simp [h4, h5]

/-- The entry of index `i` in the spread of a list of values is its item `i`. -/
theorem lookup_indexed (xs : List JsVal) (i : Nat) :
    lookup (toString i) (indexed 0 xs) = xs[i]? := by
  simpa using lookup_indexed_aux xs 0 i

/-- Every key in the spread of a list of values is the key of an index. -/
theorem hasKey_indexed (xs : List JsVal) : ∀ (n : Nat) (k : String),
    hasKey k (indexed n xs) = true → ∃ i, i < xs.length ∧ k = toString (n + i) := by
  induction xs with
  | nil => intro n k h; simp [hasKey, indexed, lookup] at h
  | cons v vs ih =>
    intro n k h
    simp only [hasKey, indexed, lookup] at h
    cases hl : lookup k (indexed (n + 1) vs) with
    | some w =>
      obtain ⟨i, hi, hk⟩ := ih (n + 1) k (by simp [hasKey, hl])
      exact ⟨i + 1, by simp; omega, by rw [hk]; congr 1; omega⟩
    | none =>
      rw [hl] at h
      by_cases hk : toString n = k
      · exact ⟨0, by simp, by simpa using hk.symm⟩
      · simp [hk] at h

/-- A key holding a character past the digits is absent from the spread of a
list of values. -/
theorem lookup_indexed_of_letter (xs : List JsVal) (k : String) (c : Char)
    (hc : c ∈ k.data) (h58 : 58 ≤ c.toNat) : lookup k (indexed 0 xs) = none := by
  cases h : lookup k (indexed 0 xs) with
  | none => rfl
  | some w =>
    obtain ⟨i, -, hk⟩ := hasKey_indexed xs 0 k (by simp [hasKey, h])
    exact absurd hk.symm (toString_nat_ne (0 + i) k c hc h58)

theorem lookup_append (k : String) (a b : Props) :
    lookup k (a ++ b) = (lookup k b).orElse fun _ => lookup k a := by
  induction a with
  | nil => cases h : lookup k b <;> simp [lookup, h]
  | cons p a ih =>
    obtain ⟨k', v⟩ := p
    rw [List.cons_append, lookup, lookup, ih]
    cases lookup k b <;> simp

theorem fetchCalls_append {E : Type} (a b : List (Event E)) :
    fetchCalls (a ++ b) = fetchCalls a ++ fetchCalls b := by
  induction a with
  | nil => rfl
  | cons x a ih => cases x <;> simp [fetchCalls, ih]

theorem textCalls_append {E : Type} (a b : List (Event E)) :
    textCalls (a ++ b) = textCalls a + textCalls b := by
  induction a with
  | nil => simp [textCalls]
  | cons x a ih => cases x <;> simp [textCalls, ih, Nat.add_right_comm]

theorem jsonCalls_append {E : Type} (a b : List (Event E)) :
    jsonCalls (a ++ b) = jsonCalls a + jsonCalls b := by
  induction a with
  | nil => simp [jsonCalls]
  | cons x a ih => cases x <;> simp [jsonCalls, ih, Nat.add_right_comm]

theorem fetchCalls_catchBlock {E : Type} (pre : List (Event E)) (e : Thrown E) :
    fetchCalls (catchBlock pre e).trace = fetchCalls pre := by
  simp [catchBlock, fetchCalls_append, fetchCalls]

theorem fetchCalls_afterFetch {E : Type} (pre : List (Event E)) (res : Response E) :
    fetchCalls (afterFetch pre res).trace = fetchCalls pre := by
  obtain ⟨st, hd, ok, tx, js⟩ := res
  cases ok
  · cases tx <;> simp [afterFetch, catchBlock, fetchCalls_append, fetchCalls]
  · cases js <;> simp [afterFetch, catchBlock, fetchCalls_append, fetchCalls]

theorem textCalls_afterFetch {E : Type} (pre : List (Event E)) (res : Response E) :
    textCalls (afterFetch pre res).trace = textCalls pre + (if res.ok then 0 else 1) := by
  obtain ⟨st, hd, ok, tx, js⟩ := res
  cases ok
  · cases tx <;> simp [afterFetch, catchBlock, textCalls_append, textCalls]
  · cases js <;> simp [afterFetch, catchBlock, textCalls_append, textCalls]

theorem jsonCalls_afterFetch {E : Type} (pre : List (Event E)) (res : Response E) :
    jsonCalls (afterFetch pre res).trace = jsonCalls pre + (if res.ok then 1 else 0) := by
  obtain ⟨st, hd, ok, tx, js⟩ := res
  cases ok
  · cases tx <;> simp [afterFetch, catchBlock, jsonCalls_append, jsonCalls]
  · cases js <;> simp [afterFetch, catchBlock, jsonCalls_append, jsonCalls]

theorem requestInit_eq_none (options : JsVal) :
    requestInit (defaultOptions options) = none ↔ isNull options = true := by
  cases options <;> simp [requestInit, requestHeaders, callerHeaders, getProp,
    defaultOptions, isNull]

theorem api_of_none {E : Type} (w : World E) (endpoint : String) (options : JsVal)
    (h : requestInit (defaultOptions options) = none) :
    api w endpoint options =
      catchBlock [.log ("Making API request to: " ++ requestUrl endpoint) none,
        .log "Request options:" (some (defaultOptions options))] .typeError := by
  simp only [api, h]

theorem api_of_some {E : Type} (w : World E) (endpoint : String) (options init : JsVal)
    (h : requestInit (defaultOptions options) = some init) :
    api w endpoint options =
      match w.fetch (requestUrl endpoint) init with
      | .threw e => catchBlock
          ([.log ("Making API request to: " ++ requestUrl endpoint) none,
            .log "Request options:" (some (defaultOptions options))] ++
            [.fetchCall (requestUrl endpoint) init]) (.env e)
      | .rejected e => catchBlock
          ([.log ("Making API request to: " ++ requestUrl endpoint) none,
            .log "Request options:" (some (defaultOptions options))] ++
            [.fetchCall (requestUrl endpoint) init]) (.env e)
      | .pending =>
          ⟨[.log ("Making API request to: " ++ requestUrl endpoint) none,
            .log "Request options:" (some (defaultOptions options))] ++
            [.fetchCall (requestUrl endpoint) init], .pending⟩
      | .resolved res => afterFetch
          ([.log ("Making API request to: " ++ requestUrl endpoint) none,
            .log "Request options:" (some (defaultOptions options))] ++
            [.fetchCall (requestUrl endpoint) init]) res := by
  simp only [api, h]

/-- The `fetch` calls of a run: none when building the init raises, else the
single call with the URL and the init built from the options. -/
theorem fetchCalls_api {E : Type} (w : World E) (endpoint : String) (options : JsVal) :
    fetchCalls (api w endpoint options).trace =
      (requestInit (defaultOptions options)).toList.map
        fun init => (requestUrl endpoint, init) := by
  cases h : requestInit (defaultOptions options) with
  | none => simp [api_of_none w endpoint options h, fetchCalls_catchBlock, fetchCalls]
  | some init =>
    rw [api_of_some w endpoint options init h]
    cases w.fetch (requestUrl endpoint) init <;>
      simp [fetchCalls_catchBlock, fetchCalls_afterFetch, fetchCalls_append, fetchCalls]

theorem requestInit_some_of_not_null (options : JsVal) (h : isNull options = false) :
    ∃ hs, callerHeaders (defaultOptions options) = some hs ∧
      requestInit (defaultOptions options) =
        some (.obj (ownProps (defaultOptions options) ++
          [("headers", JsVal.obj (("Content-Type", JsVal.str "application/json") :: hs)),
           ("credentials", JsVal.str "include")])) := by
  cases options <;> simp_all [requestInit, requestHeaders, callerHeaders, getProp,
    defaultOptions, isNull]

/-! ## Worked inputs -/

/-- A character outside the Basic Multilingual Plane spreads into two
entries, its two surrogates. -/
theorem ownProps_astral_string :
    ownProps (.str (String.singleton (Char.ofNat 0x1F600)))
      = [("0", .surrogate 0xD83D), ("1", .surrogate 0xDE00)] := by
  rfl

/-- An array of name and value pairs given as headers spreads under its
index, so the default content type stays. -/
theorem requestHeaders_of_pair_list :
    requestHeaders (.obj [("headers",
        .arr [.arr [.str "Content-Type", .str "text/plain"]])])
      = some [("Content-Type", .str "application/json"),
          ("0", .arr [.str "Content-Type", .str "text/plain"])] := by
  rfl

/-! ## Claims -/

/-- C7: the URL of the request is `API_BASE` followed by the endpoint, where
`API_BASE` is `http://localhost:8000`; nothing is inserted or rewritten, so
the URL begins with `API_BASE` and ends with the endpoint.  The request is
made for every options value other than `null`. -/
theorem api_url_is_base_then_endpoint {E : Type} (w : World E) (e : String)
    (options : JsVal) :
    (fetchCalls (api w e options).trace).map Prod.fst
        = (if isNull options then [] else ["http://localhost:8000" ++ e]) ∧
      API_BASE = "http://localhost:8000" ∧
      (API_BASE ++ e).toList = API_BASE.toList ++ e.toList ∧
      API_BASE.toList <+: (API_BASE ++ e).toList ∧
      e.toList <:+ (API_BASE ++ e).toList := by
  refine ⟨?_, rfl, by simp, by simp, by simp⟩
  rw [fetchCalls_api]
  cases h : isNull options
  · obtain ⟨hs, -, hi⟩ := requestInit_some_of_not_null options h
    simp [hi, requestUrl, API_BASE]
  · simp [(requestInit_eq_none options).2 h]

/-- C1: when the response that `fetch` resolves with has a false `ok` flag
and its `text()` resolves to the string `t`, `api` fails with an `Error`
whose message is `t`, and it returns no value. -/
theorem api_fails_with_body_text {E : Type} (w : World E) (e : String)
    (options init : JsVal) (res : Response E) (t : String)
    (hinit : requestInit (defaultOptions options) = some init)
    (hfetch : w.fetch (requestUrl e) init = .resolved res)
    (hok : res.ok = false) (htext : res.text = .resolved t) :
    (api w e options).result = .failed (.error t) ∧
      ∀ v, (api w e options).result ≠ .fulfilled v := by
  have hres : (api w e options).result = .failed (.error t) := by
    rw [api_of_some w e options init hinit, hfetch]
    simp [afterFetch, hok, htext, catchBlock]
  exact ⟨hres, fun v hv => by rw [hres] at hv; cases hv⟩

theorem api_fails_with_body_text_witness :
    notFound.ok = false ∧ notFound.text = .resolved "issue not found" ∧
      (api (answering notFound) "/issues/7" tokenOptions).result
        = .failed (.error "issue not found") ∧
      ∀ v, (api (answering notFound) "/issues/7" tokenOptions).result ≠ .fulfilled v :=
  ⟨rfl, rfl,
    api_fails_with_body_text (answering notFound) "/issues/7" tokenOptions _ notFound
      "issue not found" rfl rfl rfl rfl⟩

/-- C2: when the response that `fetch` resolves with has a true `ok` flag and
its `json()` resolves to `v`, `api` resolves to `v` itself. -/
theorem api_returns_parsed_json {E : Type} (w : World E) (e : String)
    (options init : JsVal) (res : Response E) (v : JsVal)
    (hinit : requestInit (defaultOptions options) = some init)
    (hfetch : w.fetch (requestUrl e) init = .resolved res)
    (hok : res.ok = true) (hjson : res.json = .resolved v) :
    (api w e options).result = .fulfilled v := by
  rw [api_of_some w e options init hinit, hfetch]
  simp [afterFetch, hok, hjson]

theorem api_returns_parsed_json_witness :
    found.ok = true ∧ found.json = .resolved (.arr [.num 1]) ∧
      (api (answering found) "/issues" .undefined).result = .fulfilled (.arr [.num 1]) :=
  ⟨rfl, rfl,
    api_returns_parsed_json (answering found) "/issues" .undefined _ found
      (.arr [.num 1]) rfl rfl rfl rfl⟩

/-- C6: when the `fetch` call fails with `err`, by a rejected promise or by
throwing, `api` fails with that same `err`; the last thing the run does is the
`catch` block logging `err` before it throws it again. -/
theorem api_rethrows_fetch_failure {E : Type} (w : World E) (e : String)
    (options init : JsVal) (err : E)
    (hinit : requestInit (defaultOptions options) = some init)
    (hfetch : w.fetch (requestUrl e) init = .rejected err ∨
      w.fetch (requestUrl e) init = .threw err) :
    (api w e options).result = .failed (.env err) ∧
      (api w e options).trace.getLast? = some (.errorThrown "Fetch error:" (.env err)) := by
  rw [api_of_some w e options init hinit]
  rcases hfetch with h | h <;> rw [h] <;> simp [catchBlock]

theorem api_rethrows_fetch_failure_witness :
    (offline "NetworkError").fetch (requestUrl "/issues") (.obj
        [("headers", .obj [("Content-Type", .str "application/json")]),
         ("credentials", .str "include")]) = .rejected "NetworkError" ∧
      (api (offline "NetworkError") "/issues" .undefined).result
        = .failed (.env "NetworkError") ∧
      (api (offline "NetworkError") "/issues" .undefined).trace.getLast?
        = some (.errorThrown "Fetch error:" (.env "NetworkError")) :=
  ⟨rfl,
    api_rethrows_fetch_failure (offline "NetworkError") "/issues" .undefined _
      "NetworkError" rfl (Or.inl rfl)⟩

/-- C10: the body of the response is read by one reader, chosen by the `ok`
flag: `text()` once and `json()` never when `ok` is false, `json()` once and
`text()` never when `ok` is true; and when the chosen reader fails with `err`,
by a rejected promise or by throwing, `api` fails with that same `err`. -/
theorem api_reads_body_once {E : Type} (w : World E) (e : String)
    (options init : JsVal) (res : Response E)
    (hinit : requestInit (defaultOptions options) = some init)
    (hfetch : w.fetch (requestUrl e) init = .resolved res) :
    textCalls (api w e options).trace = (if res.ok then 0 else 1) ∧
      jsonCalls (api w e options).trace = (if res.ok then 1 else 0) ∧
      (∀ err, res.ok = true → (res.json = .rejected err ∨ res.json = .threw err) →
        (api w e options).result = .failed (.env err)) ∧
      (∀ err, res.ok = false → (res.text = .rejected err ∨ res.text = .threw err) →
        (api w e options).result = .failed (.env err)) := by
  rw [api_of_some w e options init hinit, hfetch]
  refine ⟨?_, ?_, ?_, ?_⟩
  · simp [textCalls_afterFetch, textCalls]
  · simp [jsonCalls_afterFetch, jsonCalls]
  · intro err hok hj
    rcases hj with h | h <;> simp [afterFetch, hok, h, catchBlock]
  · intro err hok ht
    rcases ht with h | h <;> simp [afterFetch, hok, h, catchBlock]

theorem api_reads_body_once_witness :
    garbled.ok = true ∧ garbled.json = .rejected "SyntaxError" ∧
      textCalls (api (answering garbled) "/issues" .undefined).trace = 0 ∧
      jsonCalls (api (answering garbled) "/issues" .undefined).trace = 1 ∧
      (api (answering garbled) "/issues" .undefined).result = .failed (.env "SyntaxError") :=
  have h := api_reads_body_once (answering garbled) "/issues" .undefined _ garbled rfl rfl
  ⟨rfl, rfl, h.1, h.2.1, h.2.2.1 "SyntaxError" rfl (Or.inl rfl)⟩

/-- C8, as stated, fails: with `null` for options the property read
`options.headers` raises before `fetch` is reached, so the run makes no
request and fails with the `TypeError`. -/
theorem api_null_options_makes_no_request :
    (fetchCalls (api silentWorld "/issues" .null).trace).length = 0 ∧
      (api silentWorld "/issues" .null).result = .failed .typeError :=
  ⟨rfl, rfl⟩

/-- C8, amended: a run makes at most one `fetch` call whatever the outcome,
and exactly one unless options is `null`. -/
theorem api_fetches_once_unless_null {E : Type} (w : World E) (e : String)
    (options : JsVal) :
    (fetchCalls (api w e options).trace).length = (if isNull options then 0 else 1) := by
  rw [fetchCalls_api]
  cases h : isNull options
  · obtain ⟨hs, -, hi⟩ := requestInit_some_of_not_null options h
    simp [hi]
  · simp [(requestInit_eq_none options).2 h]

/-- C4: every request that `api` passes to `fetch` has credentials
`include`, whatever the options say; a request is passed for every options
value other than `null`. -/
theorem api_credentials_always_include {E : Type} (w : World E) (e : String)
    (options : JsVal) :
    (fetchCalls (api w e options).trace).map (fun c => initCredentials c.2)
      = (if isNull options then [] else [some (.str "include")]) := by
  rw [fetchCalls_api]
  cases h : isNull options
  · obtain ⟨hs, -, hi⟩ := requestInit_some_of_not_null options h
    simp [hi, initCredentials, lookup_append, lookup]
  · simp [(requestInit_eq_none options).2 h]

/-- C3, as stated, fails: a caller who supplies `Content-Type` in
`options.headers` replaces the default, because the caller's headers are
spread after it. -/
theorem api_caller_content_type_replaces_default :
    (fetchCalls (api silentWorld "/issues" postOptions).trace).map
        (fun c => (initHeaders c.2).bind (lookup "Content-Type"))
      = [some (.str "text/plain")] := by
  simp [fetchCalls_api, requestInit, requestHeaders, callerHeaders, getProp,
    defaultOptions, postOptions, ownProps, truthy, initHeaders, lookup]

/-- C3, amended: the headers object of every request that `api` passes to
`fetch` has a `Content-Type` entry.  When `options.headers` is a plain object
with entries `hs`, its value is the caller's `Content-Type` if `hs` holds one
and `application/json` if not; when `options.headers` is absent, `null`, a
boolean, a number, a string or an array, the value is `application/json`.  A
request is passed for every options value other than `null`. -/
theorem api_content_type_default_or_caller {E : Type} (w : World E) (e : String)
    (options : JsVal) :
    (fetchCalls (api w e options).trace).map
        (fun c => (initHeaders c.2).bind (lookup "Content-Type"))
      = match getProp (defaultOptions options) "headers" with
        | none => []
        | some (.obj hs) =>
          [some ((lookup "Content-Type" hs).getD (.str "application/json"))]
        | some _ => [some (.str "application/json")] := by
  rw [fetchCalls_api]
  have hC : ∀ xs, lookup "Content-Type" (indexed 0 xs) = none := fun xs =>
    lookup_indexed_of_letter xs "Content-Type" 'C' (by decide) (by decide)
  cases h : getProp (defaultOptions options) "headers" with
  | none => simp [requestInit, requestHeaders, callerHeaders, h]
  | some hv =>
    simp only [requestInit, requestHeaders, callerHeaders, h, Option.toList, List.map,
      initHeaders, lookup_append]
    cases hv with
    | obj hs => cases hl : lookup "Content-Type" hs <;> simp [lookup, hl, truthy, ownProps]
    | bool b => cases b <;> simp [lookup, truthy, ownProps]
    | num n => by_cases hn : n = 0 <;> simp [lookup, truthy, ownProps, hn]
    | str s => by_cases hs : s = "" <;> simp [lookup, truthy, ownProps, hs, hC]
    | surrogate u =>
      have h0 := toString_nat_ne 0 "Content-Type" 'C' (by decide) (by decide)
      simp [lookup, truthy, ownProps, indexed, h0]
    | _ => simp [lookup, truthy, ownProps, hC]

/-- C5: when `options.headers` is a plain object with entries `hs`, or is
absent (`hs` empty), the request headers are the default `Content-Type` entry
followed by `hs`: every caller entry keeps its value, and when the caller has
no `Content-Type` entry the request headers are the caller's entries plus
`Content-Type: application/json` and nothing else. -/
theorem api_headers_keep_caller_entries {E : Type} (w : World E) (e : String)
    (options : JsVal) (hs : Props)
    (h : getProp (defaultOptions options) "headers" = some (.obj hs) ∨
      (getProp (defaultOptions options) "headers" = some .undefined ∧ hs = [])) :
    ∃ init H, fetchCalls (api w e options).trace = [(requestUrl e, init)] ∧
      initHeaders init = some H ∧
      H = ("Content-Type", JsVal.str "application/json") :: hs ∧
      (∀ k v, lookup k hs = some v → lookup k H = some v) ∧
      (lookup "Content-Type" hs = none →
        ∀ k, lookup k H =
          if k = "Content-Type" then some (.str "application/json") else lookup k hs) := by
  have hc : callerHeaders (defaultOptions options) = some hs := by
    rcases h with h | ⟨h, rfl⟩ <;> simp [callerHeaders, h, truthy, ownProps]
  refine ⟨.obj (ownProps (defaultOptions options) ++
    [("headers", JsVal.obj (("Content-Type", JsVal.str "application/json") :: hs)),
     ("credentials", JsVal.str "include")]),
    ("Content-Type", JsVal.str "application/json") :: hs, ?_, ?_, rfl, ?_, ?_⟩
  · rw [fetchCalls_api]
    simp only [requestInit, requestHeaders, hc, Option.toList, List.map]
  · simp [initHeaders, lookup_append, lookup]
  · intro k v hk
    simp [lookup, hk]
  · intro hct k
    by_cases hk : k = "Content-Type"
    · subst hk
      simp [lookup, hct]
    · have hk' : ¬ "Content-Type" = k := fun h => hk h.symm
      cases hl : lookup k hs <;> simp [lookup, hl, hk, hk']

theorem api_headers_keep_caller_entries_witness :
    getProp (defaultOptions tokenOptions) "headers"
        = some (.obj [("X-Token", .str "abc")]) ∧
      ∃ init H, fetchCalls (api silentWorld "/issues/7" tokenOptions).trace
          = [(requestUrl "/issues/7", init)] ∧
        initHeaders init = some H ∧
        H = [("Content-Type", JsVal.str "application/json"), ("X-Token", .str "abc")] ∧
        (∀ k v, lookup k [("X-Token", .str "abc")] = some v → lookup k H = some v) ∧
        (lookup "Content-Type" [("X-Token", .str "abc")] = none →
          ∀ k, lookup k H =
            if k = "Content-Type" then some (.str "application/json")
            else lookup k [("X-Token", .str "abc")]) :=
  ⟨by simp [getProp, defaultOptions, tokenOptions, lookup],
    api_headers_keep_caller_entries silentWorld "/issues/7" tokenOptions
      [("X-Token", .str "abc")]
      (Or.inl (by simp [getProp, defaultOptions, tokenOptions, lookup]))⟩

/-- C9: for every options value other than `null` one request is made, and
its init holds `headers` and `credentials` besides the caller's own entries,
unchanged.  For a plain object with entries `ps` (or omitted options, `ps`
empty) every key other than those two reads as in `ps` and the keys are those
of `ps` plus the two; for an array the keys are its indices, each with its
item; for a string they are the indices of its UTF-16 units; a boolean or a
number adds nothing.  With options omitted the init is
`{ headers: { 'Content-Type': 'application/json' }, credentials: 'include' }`. -/
theorem api_init_passes_options_through {E : Type} (w : World E) (e : String)
    (options : JsVal) (hn : isNull options = false) :
    ∃ init, fetchCalls (api w e options).trace = [(requestUrl e, .obj init)] ∧
      hasKey "headers" init = true ∧ hasKey "credentials" init = true ∧
      (∀ ps, defaultOptions options = .obj ps →
        (∀ k, k ≠ "headers" → k ≠ "credentials" → lookup k init = lookup k ps) ∧
        (∀ k, hasKey k init = (hasKey k ps || k == "headers" || k == "credentials"))) ∧
      (∀ xs, options = .arr xs →
        (∀ i : Nat, lookup (toString i) init = xs[i]?) ∧
        (∀ k, hasKey k init = true →
          k = "headers" ∨ k = "credentials" ∨ ∃ i, i < xs.length ∧ k = toString i)) ∧
      (∀ s, options = .str s →
        (∀ i : Nat, lookup (toString i) init = (stringUnits s.toList)[i]?) ∧
        (∀ k, hasKey k init = true →
          k = "headers" ∨ k = "credentials" ∨
            ∃ i, i < (stringUnits s.toList).length ∧ k = toString i)) ∧
      (∀ b, options = .bool b → ∀ k, hasKey k init = (k == "headers" || k == "credentials")) ∧
      (∀ n, options = .num n → ∀ k, hasKey k init = (k == "headers" || k == "credentials")) ∧
      (options = .undefined →
        init = [("headers", .obj [("Content-Type", .str "application/json")]),
          ("credentials", .str "include")]) := by
  obtain ⟨hs, hc, hi⟩ := requestInit_some_of_not_null options hn
  have key : ∀ k : String, hasKey k
      (ownProps (defaultOptions options) ++
        [("headers", JsVal.obj (("Content-Type", JsVal.str "application/json") :: hs)),
         ("credentials", JsVal.str "include")])
      = (hasKey k (ownProps (defaultOptions options)) || k == "headers" ||
          k == "credentials") := by
    intro k
    simp only [hasKey, lookup_append, lookup]
    by_cases h2 : "credentials" = k
    · subst h2; simp
    · by_cases h1 : "headers" = k
      · subst h1; simp
      · have h1' : (k == "headers") = false := beq_eq_false_iff_ne.2 fun h => h1 h.symm
        have h2' : (k == "credentials") = false :=
          beq_eq_false_iff_ne.2 fun h => h2 h.symm
        simp [h1, h2, h1', h2']
  have val : ∀ k : String, k ≠ "headers" → k ≠ "credentials" → lookup k
      (ownProps (defaultOptions options) ++
        [("headers", JsVal.obj (("Content-Type", JsVal.str "application/json") :: hs)),
         ("credentials", JsVal.str "include")])
      = lookup k (ownProps (defaultOptions options)) := by
    intro k h1 h2
    have h1' : ¬ "headers" = k := fun h => h1 h.symm
    have h2' : ¬ "credentials" = k := fun h => h2 h.symm
    simp [lookup_append, lookup, h1', h2']
  have idx : ∀ i : Nat, toString i ≠ "headers" ∧ toString i ≠ "credentials" := fun i =>
    ⟨toString_nat_ne i "headers" 'h' (by decide) (by decide),
     toString_nat_ne i "credentials" 'c' (by decide) (by decide)⟩
  have keys : ∀ (xs : List JsVal) (k : String),
      (hasKey k (indexed 0 xs) || k == "headers" || k == "credentials") = true →
      k = "headers" ∨ k = "credentials" ∨ ∃ i, i < xs.length ∧ k = toString i := by
    intro xs k hk
    simp only [Bool.or_eq_true, beq_iff_eq] at hk
    rcases hk with (hk | hk) | hk
    · obtain ⟨i, hi, hki⟩ := hasKey_indexed xs 0 k hk
      exact Or.inr (Or.inr ⟨i, hi, by simpa using hki⟩)
    · exact Or.inl hk
    · exact Or.inr (Or.inl hk)
  refine ⟨_, by rw [fetchCalls_api, hi]; rfl, by rw [key]; simp, by rw [key]; simp,
    ?_, ?_, ?_, ?_, ?_, ?_⟩
  · intro ps hps
    simp only [hps, ownProps] at key val ⊢
    exact ⟨val, key⟩
  · intro xs hxs
    subst hxs
    refine ⟨fun i => ?_, fun k hk => ?_⟩
    · rw [val _ (idx i).1 (idx i).2]
      exact lookup_indexed xs i
    · rw [key] at hk
      exact keys xs k hk
  · intro s hs'
    subst hs'
    refine ⟨fun i => ?_, fun k hk => ?_⟩
    · rw [val _ (idx i).1 (idx i).2]
      exact lookup_indexed _ i
    · rw [key] at hk
      exact keys _ k hk
  · intro b hb k
    subst hb
    rw [key]
    simp [defaultOptions, ownProps, hasKey, lookup]
  · intro n hn' k
    subst hn'
    rw [key]
    simp [defaultOptions, ownProps, hasKey, lookup]
  · intro hu
    subst hu
    simp [callerHeaders, getProp, defaultOptions, lookup, truthy] at hc
    subst hc
    simp [defaultOptions, ownProps]

theorem api_init_passes_options_through_witness :
    isNull postOptions = false ∧
      ∃ init, fetchCalls (api silentWorld "/issues" postOptions).trace
          = [(requestUrl "/issues", .obj init)] ∧
        hasKey "headers" init = true ∧ hasKey "credentials" init = true ∧
        (∀ ps, defaultOptions postOptions = .obj ps →
          (∀ k, k ≠ "headers" → k ≠ "credentials" → lookup k init = lookup k ps) ∧
          (∀ k, hasKey k init = (hasKey k ps || k == "headers" || k == "credentials"))) ∧
        (∀ xs, postOptions = .arr xs →
          (∀ i : Nat, lookup (toString i) init = xs[i]?) ∧
          (∀ k, hasKey k init = true →
            k = "headers" ∨ k = "credentials" ∨ ∃ i, i < xs.length ∧ k = toString i)) ∧
        (∀ s, postOptions = .str s →
          (∀ i : Nat, lookup (toString i) init = (stringUnits s.toList)[i]?) ∧
          (∀ k, hasKey k init = true →
            k = "headers" ∨ k = "credentials" ∨
              ∃ i, i < (stringUnits s.toList).length ∧ k = toString i)) ∧
        (∀ b, postOptions = .bool b →
          ∀ k, hasKey k init = (k == "headers" || k == "credentials")) ∧
        (∀ n, postOptions = .num n →
          ∀ k, hasKey k init = (k == "headers" || k == "credentials")) ∧
        (postOptions = .undefined →
          init = [("headers", .obj [("Content-Type", .str "application/json")]),
            ("credentials", .str "include")]) :=
  ⟨rfl, api_init_passes_options_through silentWorld "/issues" postOptions rfl⟩

end IssuesTracker
